import Mathlib

/-!
Verification of the request-shaping contract of the giovanni storage client:
the queue `SetMetaData` and blob `AbortCopy` operations, their input
validation, request-descriptor construction, header/query production, and
error classification.  Pure Go helpers are embedded as Lean functions; the
external request builder/executor (go-azure-sdk) is modelled at its boundary
as described by the specification.
-/

namespace Giovanni

/-- HTTP headers as ordered key-value pairs (client.Headers). -/
structure Headers where
  entries : List (String × String)
deriving Repr, DecidableEq

/-- Headers.Append adds one key-value pair. -/
def Headers.Append (h : Headers) (k v : String) : Headers :=
  ⟨h.entries ++ [(k, v)]⟩

/-- Headers.Merge appends all entries of the other header set. -/
def Headers.Merge (h other : Headers) : Headers :=
  ⟨h.entries ++ other.entries⟩

/-- Query parameters as ordered key-value pairs (client.QueryParams). -/
structure QueryParams where
  entries : List (String × String)
deriving Repr, DecidableEq

/-- QueryParams.Append adds one key-value pair. -/
def QueryParams.Append (q : QueryParams) (k v : String) : QueryParams :=
  ⟨q.entries ++ [(k, v)]⟩

/-- Input of the blob AbortCopy operation (blobs.AbortCopyInput). -/
structure AbortCopyInput where
  CopyID : String
  LeaseID : Option String
deriving Repr, DecidableEq

/-- Input of the queue SetMetaData operation (queues.SetMetaDataInput);
the Go map[string]string is embedded as an association list. -/
structure SetMetaDataInput where
  MetaData : List (String × String)
deriving Repr, DecidableEq

/-- Options object of the blob AbortCopy operation (blobs.copyAbortOptions). -/
structure copyAbortOptions where
  input : AbortCopyInput
deriving Repr, DecidableEq

/-- Options object of the queue SetMetaData operation
(queues.setMetaDataOptions). -/
structure setMetaDataOptions where
  metadata : List (String × String)
deriving Repr, DecidableEq

/-- The per-operation options capability value (client.Options interface)
carried inside a request descriptor. -/
inductive Options where
  | setMetaData (opts : setMetaDataOptions)
  | copyAbort (opts : copyAbortOptions)
deriving Repr, DecidableEq

/-- metadata.SetIntoHeaders: one header per metadata entry, key prefixed
with the fixed namespace token, value unchanged. -/
def SetIntoHeaders (metaData : List (String × String)) : Headers :=
  metaData.foldl (fun headers kv => headers.Append ("x-ms-meta-" ++ kv.1) kv.2) ⟨[]⟩

/-- Modelled from the spec: `metadata.SetMetaDataHeaders` is invoked by the
queue set-metadata options object but its source is not under src/; the spec
states it produces one header per metadata entry, each named with the fixed
x-ms-meta- namespace token followed by the key, value passed through
unescaped.  (It coincides with metadata.SetIntoHeaders, which is in src/.) -/
def SetMetaDataHeaders (metaData : List (String × String)) : Headers :=
  metaData.foldl (fun headers kv => headers.Append ("x-ms-meta-" ++ kv.1) kv.2) ⟨[]⟩

/-- copyAbortOptions.ToHeaders: always x-ms-copy-action abort, plus
x-ms-lease-id when a lease ID pointer is present. -/
def copyAbortOptions.ToHeaders (c : copyAbortOptions) : Headers :=
  let headers : Headers := ⟨[]⟩
  let headers := headers.Append "x-ms-copy-action" "abort"
  match c.input.LeaseID with
  | some l => headers.Append "x-ms-lease-id" l
  | none => headers

/-- copyAbortOptions.ToQuery: comp=copy and copyid. -/
def copyAbortOptions.ToQuery (c : copyAbortOptions) : QueryParams :=
  let out : QueryParams := ⟨[]⟩
  let out := out.Append "comp" "copy"
  out.Append "copyid" c.input.CopyID

/-- copyAbortOptions.ToOData: always nil. -/
def copyAbortOptions.ToOData (_ : copyAbortOptions) : Option Unit :=
  none

/-- setMetaDataOptions.ToHeaders: merges the metadata headers into an empty
header set. -/
def setMetaDataOptions.ToHeaders (s : setMetaDataOptions) : Headers :=
  let headers : Headers := ⟨[]⟩
  headers.Merge (SetMetaDataHeaders s.metadata)

/-- setMetaDataOptions.ToQuery: comp=metadata. -/
def setMetaDataOptions.ToQuery (s : setMetaDataOptions) : QueryParams :=
  let out : QueryParams := ⟨[]⟩
  out.Append "comp" "metadata"

/-- setMetaDataOptions.ToOData: always nil. -/
def setMetaDataOptions.ToOData (_ : setMetaDataOptions) : Option Unit :=
  none

/-- Dispatch of the ToHeaders capability over the options interface. -/
def Options.ToHeaders : Options → Headers
  | .setMetaData o => o.ToHeaders
  | .copyAbort o => o.ToHeaders

/-- Dispatch of the ToQuery capability over the options interface. -/
def Options.ToQuery : Options → QueryParams
  | .setMetaData o => o.ToQuery
  | .copyAbort o => o.ToQuery

/-- The request descriptor (client.RequestOptions): method, path, query and
headers via the options object, content type, expected success statuses. -/
structure RequestOptions where
  ContentType : Option String
  ExpectedStatusCodes : List Nat
  HttpMethod : String
  OptionsObject : Options
  Path : String
deriving Repr, DecidableEq

/-- The raw transport response (client.Response); only the status code is
relevant to the examined operations. -/
structure Response where
  StatusCode : Nat
deriving Repr, DecidableEq

/-- Modelled from the spec: the outcome of the single network round trip
performed by the external executor — either a transport-level failure
(network error or context cancellation) or a received status code. -/
inductive TransportOutcome where
  | failure (msg : String)
  | received (status : Nat)
deriving Repr, DecidableEq

/-- Modelled from the spec: the per-call behaviour of the shared external
execution primitive (go-azure-sdk BaseClient), specified only at its
boundary — whether building the request fails, and the transport outcome. -/
structure ClientEnv where
  buildError : Option String
  outcome : TransportOutcome
deriving Repr, DecidableEq

/-- Modelled from the spec: NewRequest constructs the request from a fully
populated descriptor, or fails with a build error. -/
def NewRequest (env : ClientEnv) (opts : RequestOptions) : Except String RequestOptions :=
  match env.buildError with
  | some e => .error e
  | none => .ok opts

/-- Modelled from the spec (Response Interpreter): a transport failure yields
no response and an error; a received status in the expected set yields the
response with no error; any other received status yields an error with the
raw response still returned. -/
def Execute (env : ClientEnv) (req : RequestOptions) : Option Response × Option String :=
  match env.outcome with
  | .failure msg => (none, some msg)
  | .received status =>
    if status ∈ req.ExpectedStatusCodes then (some ⟨status⟩, none)
    else (some ⟨status⟩, some ("unexpected status " ++ toString status))

/-- Observable calls an operation makes into the external execution
primitive, recorded in order. -/
inductive CallEvent where
  | newRequest (opts : RequestOptions)
  | execute (req : RequestOptions)
deriving Repr, DecidableEq

/-- True exactly on execute events. -/
def CallEvent.isExecute : CallEvent → Bool
  | .execute _ => true
  | .newRequest _ => false

/-- Result struct of SetMetaData (queues.SetMetaDataResponse). -/
structure SetMetaDataResponse where
  HttpResponse : Option Response
deriving Repr, DecidableEq

/-- Result struct of AbortCopy (blobs.CopyAbortResponse). -/
structure CopyAbortResponse where
  HttpResponse : Option Response
deriving Repr, DecidableEq

/-- strings.ToLower, embedded by lower-casing each character of the string. -/
def ToLower (s : String) : String :=
  ⟨s.data.map Char.toLower⟩

/-- Modelled from the spec: a header-safe string for metadata keys and
values — every character is a printable ASCII header character. -/
def validHeaderText (s : String) : Bool :=
  s.data.all (fun c => 32 ≤ c.toNat && c.toNat ≤ 126)

/-- Modelled from the spec: `metadata.Validate` is invoked by SetMetaData but
its source is not under src/; per the spec, metadata keys and values must
satisfy header-safe character rules, and an invalid header character in a
key or value is rejected with a descriptive error. -/
def Validate (metaData : List (String × String)) : Option String :=
  match metaData.find? (fun kv => !(validHeaderText kv.1 && validHeaderText kv.2)) with
  | some kv => some ("the metadata key " ++ kv.1 ++ " or its value contains an invalid header character")
  | none => none

/-- The request descriptor built by SetMetaData for a validated call. -/
def setMetaDataOpts (queueName : String) (input : SetMetaDataInput) : RequestOptions :=
  { ContentType := some "application/xml; charset=utf-8"
    ExpectedStatusCodes := [204]
    HttpMethod := "PUT"
    OptionsObject := .setMetaData ⟨input.MetaData⟩
    Path := "/" ++ queueName }

/-- The request descriptor built by AbortCopy for a validated call. -/
def abortCopyOpts (containerName blobName : String) (input : AbortCopyInput) : RequestOptions :=
  { ContentType := none
    ExpectedStatusCodes := [204]
    HttpMethod := "PUT"
    OptionsObject := .copyAbort ⟨input⟩
    Path := "/" ++ containerName ++ "/" ++ blobName }

/-- queues.Client.SetMetaData: validate, build the descriptor, call
NewRequest then Execute, wrapping each stage error; returns the response
struct, the error, and the trace of calls into the external primitive. -/
def SetMetaData (env : ClientEnv) (queueName : String) (input : SetMetaDataInput) :
    SetMetaDataResponse × Option String × List CallEvent :=
  if queueName = "" then
    (⟨none⟩, some "`queueName` cannot be an empty string", [])
  else if ToLower queueName ≠ queueName then
    (⟨none⟩, some "`queueName` must be a lower-cased string", [])
  else
    match Validate input.MetaData with
    | some e => (⟨none⟩, some ("`metadata` is not valid: " ++ e), [])
    | none =>
      let opts := setMetaDataOpts queueName input
      match NewRequest env opts with
      | .error e => (⟨none⟩, some ("building request: " ++ e), [.newRequest opts])
      | .ok req =>
        match Execute env req with
        | (httpResp, some e) =>
          (⟨httpResp⟩, some ("executing request: " ++ e), [.newRequest opts, .execute req])
        | (httpResp, none) =>
          (⟨httpResp⟩, none, [.newRequest opts, .execute req])

/-- blobs.Client.AbortCopy: validate, build the descriptor, call NewRequest
then Execute, wrapping each stage error; returns the response struct, the
error, and the trace of calls into the external primitive. -/
def AbortCopy (env : ClientEnv) (containerName blobName : String) (input : AbortCopyInput) :
    CopyAbortResponse × Option String × List CallEvent :=
  if containerName = "" then
    (⟨none⟩, some "`containerName` cannot be an empty string", [])
  else if ToLower containerName ≠ containerName then
    (⟨none⟩, some "`containerName` must be a lower-cased string", [])
  else if blobName = "" then
    (⟨none⟩, some "`blobName` cannot be an empty string", [])
  else if input.CopyID = "" then
    (⟨none⟩, some "`input.CopyID` cannot be an empty string", [])
  else
    let opts := abortCopyOpts containerName blobName input
    match NewRequest env opts with
    | .error e => (⟨none⟩, some ("building request: " ++ e), [.newRequest opts])
    | .ok req =>
      match Execute env req with
      | (httpResp, some e) =>
        (⟨httpResp⟩, some ("executing request: " ++ e), [.newRequest opts, .execute req])
      | (httpResp, none) =>
        (⟨httpResp⟩, none, [.newRequest opts, .execute req])

/-- The metadata header fold appends one prefixed header per entry. -/
theorem metaHeaders_foldl (metaData : List (String × String)) (acc : Headers) :
    (metaData.foldl (fun headers kv => headers.Append ("x-ms-meta-" ++ kv.1) kv.2) acc).entries =
      acc.entries ++ metaData.map (fun kv => ("x-ms-meta-" ++ kv.1, kv.2)) := by
  induction metaData generalizing acc with
  | nil => simp
  | cons kv rest ih =>
    rw [List.foldl_cons, ih]
    simp [Headers.Append]

/-- C5: for every metadata mapping, the headers produced for a SetMetaData
request are exactly one header per metadata entry, named x-ms-meta- followed
by the key, with the value passed through unmodified, and no extra headers. -/
theorem setMetaData_headers_one_per_entry (queueName : String) (input : SetMetaDataInput) :
    (setMetaDataOpts queueName input).OptionsObject.ToHeaders.entries =
      input.MetaData.map (fun kv => ("x-ms-meta-" ++ kv.1, kv.2)) ∧
    (SetIntoHeaders input.MetaData).entries =
      input.MetaData.map (fun kv => ("x-ms-meta-" ++ kv.1, kv.2)) := by
  constructor
  · simp [setMetaDataOpts, Options.ToHeaders, setMetaDataOptions.ToHeaders, Headers.Merge,
      SetMetaDataHeaders, metaHeaders_foldl]
  · simp [SetIntoHeaders, metaHeaders_foldl]

/-- A validated AbortCopy call first hands the abort-copy descriptor to
NewRequest, whatever the external primitive then does. -/
theorem abortCopy_validated_head (env : ClientEnv) (containerName blobName : String)
    (input : AbortCopyInput) (hc : containerName ≠ "")
    (hcl : ToLower containerName = containerName) (hb : blobName ≠ "")
    (hid : input.CopyID ≠ "") :
    (AbortCopy env containerName blobName input).2.2.head? =
      some (.newRequest (abortCopyOpts containerName blobName input)) := by
  unfold AbortCopy
  rw [if_neg hc, if_neg (by simp [hcl]), if_neg hb, if_neg hid]
  unfold NewRequest Execute
  cases env.buildError <;> cases env.outcome <;> simp <;> split <;> simp

/-- A validated SetMetaData call first hands the set-metadata descriptor to
NewRequest, whatever the external primitive then does. -/
theorem setMetaData_validated_head (env : ClientEnv) (queueName : String)
    (input : SetMetaDataInput) (hq : queueName ≠ "")
    (hql : ToLower queueName = queueName) (hv : Validate input.MetaData = none) :
    (SetMetaData env queueName input).2.2.head? =
      some (.newRequest (setMetaDataOpts queueName input)) := by
  unfold SetMetaData
  rw [if_neg hq, if_neg (by simp [hql]), hv]
  unfold NewRequest Execute
  cases env.buildError <;> cases env.outcome <;> simp <;> split <;> simp

/-- C2: for every AbortCopy call that passes validation, the request is built
from the abort-copy descriptor, whose headers are exactly x-ms-copy-action
abort, followed by x-ms-lease-id with the supplied value exactly when a
lease ID is present, and nothing else. -/
theorem abortCopy_headers_exact (env : ClientEnv) (containerName blobName : String)
    (input : AbortCopyInput) (hc : containerName ≠ "")
    (hcl : ToLower containerName = containerName) (hb : blobName ≠ "")
    (hid : input.CopyID ≠ "") :
    (AbortCopy env containerName blobName input).2.2.head? =
      some (.newRequest (abortCopyOpts containerName blobName input)) ∧
    (abortCopyOpts containerName blobName input).OptionsObject.ToHeaders.entries =
      ("x-ms-copy-action", "abort") ::
        (match input.LeaseID with
          | some l => [("x-ms-lease-id", l)]
          | none => []) := by
  constructor
  · exact abortCopy_validated_head env containerName blobName input hc hcl hb hid
  · simp only [abortCopyOpts, Options.ToHeaders, copyAbortOptions.ToHeaders]
    cases input.LeaseID <;> simp [Headers.Append]

/-- C2 witness: a concrete validated call with a present lease ID. -/
theorem abortCopy_headers_exact_witness :
    (AbortCopy ⟨none, .received 204⟩ "container" "blob" ⟨"copy1", some "lease1"⟩).2.2.head? =
      some (.newRequest (abortCopyOpts "container" "blob" ⟨"copy1", some "lease1"⟩)) ∧
    (abortCopyOpts "container" "blob" ⟨"copy1", some "lease1"⟩).OptionsObject.ToHeaders.entries =
      ("x-ms-copy-action", "abort") ::
        (match (some "lease1" : Option String) with
          | some l => [("x-ms-lease-id", l)]
          | none => []) :=
  abortCopy_headers_exact ⟨none, .received 204⟩ "container" "blob" ⟨"copy1", some "lease1"⟩
    (by decide) (by decide) (by decide) (by decide)

/-- C3: for every AbortCopy call that passes validation, the request
descriptor handed to NewRequest has method PUT, path slash container slash
blob, query exactly comp=copy and copyid, and expected statuses {204}. -/
theorem abortCopy_request_descriptor (env : ClientEnv) (containerName blobName : String)
    (input : AbortCopyInput) (hc : containerName ≠ "")
    (hcl : ToLower containerName = containerName) (hb : blobName ≠ "")
    (hid : input.CopyID ≠ "") :
    (AbortCopy env containerName blobName input).2.2.head? =
      some (.newRequest (abortCopyOpts containerName blobName input)) ∧
    (abortCopyOpts containerName blobName input).HttpMethod = "PUT" ∧
    (abortCopyOpts containerName blobName input).Path = "/" ++ containerName ++ "/" ++ blobName ∧
    (abortCopyOpts containerName blobName input).OptionsObject.ToQuery.entries =
      [("comp", "copy"), ("copyid", input.CopyID)] ∧
    (abortCopyOpts containerName blobName input).ExpectedStatusCodes = [204] := by
  refine ⟨abortCopy_validated_head env containerName blobName input hc hcl hb hid, rfl, rfl, ?_, rfl⟩
  simp [abortCopyOpts, Options.ToQuery, copyAbortOptions.ToQuery, QueryParams.Append]

/-- C3 witness: a concrete validated abort-copy call. -/
theorem abortCopy_request_descriptor_witness :
    (AbortCopy ⟨none, .received 204⟩ "mycontainer" "myblob.txt" ⟨"abc123", none⟩).2.2.head? =
      some (.newRequest (abortCopyOpts "mycontainer" "myblob.txt" ⟨"abc123", none⟩)) ∧
    (abortCopyOpts "mycontainer" "myblob.txt" ⟨"abc123", none⟩).HttpMethod = "PUT" ∧
    (abortCopyOpts "mycontainer" "myblob.txt" ⟨"abc123", none⟩).Path =
      "/" ++ "mycontainer" ++ "/" ++ "myblob.txt" ∧
    (abortCopyOpts "mycontainer" "myblob.txt" ⟨"abc123", none⟩).OptionsObject.ToQuery.entries =
      [("comp", "copy"), ("copyid", ("abc123" : String))] ∧
    (abortCopyOpts "mycontainer" "myblob.txt" ⟨"abc123", none⟩).ExpectedStatusCodes = [204] :=
  abortCopy_request_descriptor ⟨none, .received 204⟩ "mycontainer" "myblob.txt" ⟨"abc123", none⟩
    (by decide) (by decide) (by decide) (by decide)

/-- C4: for every SetMetaData call that passes validation, the request
descriptor handed to NewRequest has method PUT, path slash queue, query
exactly comp=metadata, content type application/xml charset utf-8, and
expected statuses {204}. -/
theorem setMetaData_request_descriptor (env : ClientEnv) (queueName : String)
    (input : SetMetaDataInput) (hq : queueName ≠ "")
    (hql : ToLower queueName = queueName) (hv : Validate input.MetaData = none) :
    (SetMetaData env queueName input).2.2.head? =
      some (.newRequest (setMetaDataOpts queueName input)) ∧
    (setMetaDataOpts queueName input).HttpMethod = "PUT" ∧
    (setMetaDataOpts queueName input).Path = "/" ++ queueName ∧
    (setMetaDataOpts queueName input).OptionsObject.ToQuery.entries = [("comp", "metadata")] ∧
    (setMetaDataOpts queueName input).ContentType = some "application/xml; charset=utf-8" ∧
    (setMetaDataOpts queueName input).ExpectedStatusCodes = [204] := by
  refine ⟨setMetaData_validated_head env queueName input hq hql hv, rfl, rfl, ?_, rfl, rfl⟩
  simp [setMetaDataOpts, Options.ToQuery, setMetaDataOptions.ToQuery, QueryParams.Append]

/-- C4 witness: a concrete validated set-metadata call. -/
theorem setMetaData_request_descriptor_witness :
    (SetMetaData ⟨none, .received 204⟩ "myqueue" ⟨[("owner", "alice")]⟩).2.2.head? =
      some (.newRequest (setMetaDataOpts "myqueue" ⟨[("owner", "alice")]⟩)) ∧
    (setMetaDataOpts "myqueue" ⟨[("owner", "alice")]⟩).HttpMethod = "PUT" ∧
    (setMetaDataOpts "myqueue" ⟨[("owner", "alice")]⟩).Path = "/" ++ "myqueue" ∧
    (setMetaDataOpts "myqueue" ⟨[("owner", "alice")]⟩).OptionsObject.ToQuery.entries =
      [("comp", "metadata")] ∧
    (setMetaDataOpts "myqueue" ⟨[("owner", "alice")]⟩).ContentType =
      some "application/xml; charset=utf-8" ∧
    (setMetaDataOpts "myqueue" ⟨[("owner", "alice")]⟩).ExpectedStatusCodes = [204] :=
  setMetaData_request_descriptor ⟨none, .received 204⟩ "myqueue" ⟨[("owner", "alice")]⟩
    (by decide) (by decide) (by decide)

/-- C10: AbortCopy never inspects the content of a present lease ID: for any
lease value, including the empty string, validation succeeds (the descriptor
is handed to NewRequest) and the produced headers carry x-ms-lease-id with
exactly that value. -/
theorem abortCopy_leaseID_content_unchecked (env : ClientEnv)
    (containerName blobName copyID leaseValue : String) (hc : containerName ≠ "")
    (hcl : ToLower containerName = containerName) (hb : blobName ≠ "")
    (hid : copyID ≠ "") :
    (AbortCopy env containerName blobName ⟨copyID, some leaseValue⟩).2.2.head? =
      some (.newRequest (abortCopyOpts containerName blobName ⟨copyID, some leaseValue⟩)) ∧
    (abortCopyOpts containerName blobName ⟨copyID, some leaseValue⟩).OptionsObject.ToHeaders.entries =
      [("x-ms-copy-action", "abort"), ("x-ms-lease-id", leaseValue)] := by
  refine ⟨abortCopy_validated_head env containerName blobName ⟨copyID, some leaseValue⟩ hc hcl hb hid, ?_⟩
  simp [abortCopyOpts, Options.ToHeaders, copyAbortOptions.ToHeaders, Headers.Append]

/-- C10 witness: a concrete call whose lease ID points at the empty string. -/
theorem abortCopy_leaseID_content_unchecked_witness :
    (AbortCopy ⟨none, .received 204⟩ "container" "blob" ⟨"copy1", some ""⟩).2.2.head? =
      some (.newRequest (abortCopyOpts "container" "blob" ⟨"copy1", some ""⟩)) ∧
    (abortCopyOpts "container" "blob" ⟨"copy1", some ""⟩).OptionsObject.ToHeaders.entries =
      [("x-ms-copy-action", "abort"), ("x-ms-lease-id", ("" : String))] :=
  abortCopy_leaseID_content_unchecked ⟨none, .received 204⟩ "container" "blob" "copy1" ""
    (by decide) (by decide) (by decide) (by decide)

/-- C1: every SetMetaData or AbortCopy call whose inputs fail a validation
check returns an error, and neither NewRequest nor Execute is invoked. -/
theorem validation_failure_no_network (env : ClientEnv) :
    (∀ queueName input,
      (queueName = "" ∨ ToLower queueName ≠ queueName ∨ Validate input.MetaData ≠ none) →
      (SetMetaData env queueName input).2.1 ≠ none ∧
      (SetMetaData env queueName input).2.2 = []) ∧
    (∀ containerName blobName input,
      (containerName = "" ∨ ToLower containerName ≠ containerName ∨ blobName = "" ∨
          input.CopyID = "") →
      (AbortCopy env containerName blobName input).2.1 ≠ none ∧
      (AbortCopy env containerName blobName input).2.2 = []) := by
  constructor
  · intro queueName input h
    unfold SetMetaData
    by_cases h1 : queueName = ""
    · simp [h1]
    · rw [if_neg h1]
      by_cases h2 : ToLower queueName ≠ queueName
      · rw [if_pos h2]
        exact ⟨by simp, rfl⟩
      · rw [if_neg h2]
        cases hv : Validate input.MetaData with
        | some e => exact ⟨by simp, rfl⟩
        | none =>
          exfalso
          rcases h with h | h | h
          exacts [h1 h, h2 h, h hv]
  · intro containerName blobName input h
    unfold AbortCopy
    by_cases h1 : containerName = ""
    · simp [h1]
    · rw [if_neg h1]
      by_cases h2 : ToLower containerName ≠ containerName
      · rw [if_pos h2]
        exact ⟨by simp, rfl⟩
      · rw [if_neg h2]
        by_cases h3 : blobName = ""
        · simp [h3]
        · rw [if_neg h3]
          by_cases h4 : input.CopyID = ""
          · simp [h4]
          · exfalso
            rcases h with h | h | h | h
            exacts [h1 h, h2 h, h3 h, h4 h]

/-- C1 witness: an upper-cased queue name is rejected with no calls. -/
theorem validation_failure_no_network_witness :
    (SetMetaData ⟨none, .received 204⟩ "Queue" ⟨[]⟩).2.1 ≠ none ∧
    (SetMetaData ⟨none, .received 204⟩ "Queue" ⟨[]⟩).2.2 = [] :=
  (validation_failure_no_network ⟨none, .received 204⟩).1 "Queue" ⟨[]⟩
    (Or.inr (Or.inl (by decide)))

/-- C6 counterexample: the blob name "BLOB" contains upper-case characters,
yet the AbortCopy call is not rejected — it returns no error and performs
network calls under a 204-returning environment. -/
theorem upper_blobName_accepted_counterexample :
    ToLower "BLOB" ≠ "BLOB" ∧
    (AbortCopy ⟨none, .received 204⟩ "container" "BLOB" ⟨"copy1", none⟩).2.1 = none ∧
    (AbortCopy ⟨none, .received 204⟩ "container" "BLOB" ⟨"copy1", none⟩).2.2 ≠ [] := by
  decide

/-- C6 amended: an empty resource name is always rejected with an error and
no network calls; queueName and containerName are additionally rejected when
not lower-cased; blobName is checked only for non-emptiness. -/
theorem resource_name_validation (env : ClientEnv) :
    (∀ queueName input, (queueName = "" ∨ ToLower queueName ≠ queueName) →
      (SetMetaData env queueName input).2.1 ≠ none ∧
      (SetMetaData env queueName input).2.2 = []) ∧
    (∀ containerName blobName input,
      (containerName = "" ∨ ToLower containerName ≠ containerName ∨ blobName = "") →
      (AbortCopy env containerName blobName input).2.1 ≠ none ∧
      (AbortCopy env containerName blobName input).2.2 = []) := by
  constructor
  · intro queueName input h
    unfold SetMetaData
    by_cases h1 : queueName = ""
    · simp [h1]
    · rw [if_neg h1]
      have h2 : ToLower queueName ≠ queueName := by
        rcases h with h | h
        · exact absurd h h1
        · exact h
      rw [if_pos h2]
      exact ⟨by simp, rfl⟩
  · intro containerName blobName input h
    unfold AbortCopy
    by_cases h1 : containerName = ""
    · simp [h1]
    · rw [if_neg h1]
      by_cases h2 : ToLower containerName ≠ containerName
      · rw [if_pos h2]
        exact ⟨by simp, rfl⟩
      · rw [if_neg h2]
        have h3 : blobName = "" := by
          rcases h with h | h | h
          exacts [absurd h h1, absurd h h2, h]
        simp [h3]

/-- C6 amended witness: an upper-cased container name is rejected. -/
theorem resource_name_validation_witness :
    (AbortCopy ⟨none, .received 204⟩ "Container" "blob" ⟨"copy1", none⟩).2.1 ≠ none ∧
    (AbortCopy ⟨none, .received 204⟩ "Container" "blob" ⟨"copy1", none⟩).2.2 = [] :=
  (resource_name_validation ⟨none, .received 204⟩).2 "Container" "blob" ⟨"copy1", none⟩
    (Or.inr (Or.inl (by decide)))

/-- C7: for validated calls against an environment that delivers a response
with the given status, the raw response is attached to the returned struct,
and the error is nil exactly when the status is in the operation's expected
status set. -/
theorem expected_status_determines_success (status : Nat) (queueName : String)
    (inputQ : SetMetaDataInput) (containerName blobName : String) (inputB : AbortCopyInput)
    (hq : queueName ≠ "") (hql : ToLower queueName = queueName)
    (hv : Validate inputQ.MetaData = none) (hc : containerName ≠ "")
    (hcl : ToLower containerName = containerName) (hb : blobName ≠ "")
    (hid : inputB.CopyID ≠ "") :
    (SetMetaData ⟨none, .received status⟩ queueName inputQ).1.HttpResponse = some ⟨status⟩ ∧
    (AbortCopy ⟨none, .received status⟩ containerName blobName inputB).1.HttpResponse =
      some ⟨status⟩ ∧
    (status ∈ (setMetaDataOpts queueName inputQ).ExpectedStatusCodes ↔
      (SetMetaData ⟨none, .received status⟩ queueName inputQ).2.1 = none) ∧
    (status ∈ (abortCopyOpts containerName blobName inputB).ExpectedStatusCodes ↔
      (AbortCopy ⟨none, .received status⟩ containerName blobName inputB).2.1 = none) := by
  unfold SetMetaData AbortCopy NewRequest Execute
  by_cases hs : status = 204 <;>
    simp [hq, hql, hv, hc, hcl, hb, hid, setMetaDataOpts, abortCopyOpts, hs]

/-- C7 witness: a 204 response to validated concrete calls is a success. -/
theorem expected_status_determines_success_witness :
    (SetMetaData ⟨none, .received 204⟩ "myqueue" ⟨[("owner", "alice")]⟩).1.HttpResponse =
      some ⟨204⟩ ∧
    (AbortCopy ⟨none, .received 204⟩ "mycontainer" "myblob.txt"
        ⟨"abc123", none⟩).1.HttpResponse = some ⟨204⟩ ∧
    (204 ∈ (setMetaDataOpts "myqueue" ⟨[("owner", "alice")]⟩).ExpectedStatusCodes ↔
      (SetMetaData ⟨none, .received 204⟩ "myqueue" ⟨[("owner", "alice")]⟩).2.1 = none) ∧
    (204 ∈ (abortCopyOpts "mycontainer" "myblob.txt" ⟨"abc123", none⟩).ExpectedStatusCodes ↔
      (AbortCopy ⟨none, .received 204⟩ "mycontainer" "myblob.txt" ⟨"abc123", none⟩).2.1 =
        none) :=
  expected_status_determines_success 204 "myqueue" ⟨[("owner", "alice")]⟩ "mycontainer"
    "myblob.txt" ⟨"abc123", none⟩ (by decide) (by decide) (by decide) (by decide) (by decide)
    (by decide) (by decide)

/-- C8: for validated calls, a NewRequest failure is surfaced wrapped with
the building request stage tag, and an Execute transport failure is surfaced
wrapped with the executing request stage tag, for both operations. -/
theorem stage_tagged_errors (e : String) (outcome : TransportOutcome) (queueName : String)
    (inputQ : SetMetaDataInput) (containerName blobName : String) (inputB : AbortCopyInput)
    (hq : queueName ≠ "") (hql : ToLower queueName = queueName)
    (hv : Validate inputQ.MetaData = none) (hc : containerName ≠ "")
    (hcl : ToLower containerName = containerName) (hb : blobName ≠ "")
    (hid : inputB.CopyID ≠ "") :
    (SetMetaData ⟨some e, outcome⟩ queueName inputQ).2.1 =
      some ("building request: " ++ e) ∧
    (AbortCopy ⟨some e, outcome⟩ containerName blobName inputB).2.1 =
      some ("building request: " ++ e) ∧
    (SetMetaData ⟨none, .failure e⟩ queueName inputQ).2.1 =
      some ("executing request: " ++ e) ∧
    (AbortCopy ⟨none, .failure e⟩ containerName blobName inputB).2.1 =
      some ("executing request: " ++ e) := by
  unfold SetMetaData AbortCopy NewRequest Execute
  simp [hq, hql, hv, hc, hcl, hb, hid]

/-- C8 witness: a concrete build failure and a concrete transport failure
carry their stage tags. -/
theorem stage_tagged_errors_witness :
    (SetMetaData ⟨some "boom", .received 204⟩ "myqueue" ⟨[]⟩).2.1 =
      some ("building request: " ++ "boom") ∧
    (AbortCopy ⟨some "boom", .received 204⟩ "mycontainer" "myblob.txt" ⟨"abc123", none⟩).2.1 =
      some ("building request: " ++ "boom") ∧
    (SetMetaData ⟨none, .failure "boom"⟩ "myqueue" ⟨[]⟩).2.1 =
      some ("executing request: " ++ "boom") ∧
    (AbortCopy ⟨none, .failure "boom"⟩ "mycontainer" "myblob.txt" ⟨"abc123", none⟩).2.1 =
      some ("executing request: " ++ "boom") :=
  stage_tagged_errors "boom" (.received 204) "myqueue" ⟨[]⟩ "mycontainer" "myblob.txt"
    ⟨"abc123", none⟩ (by decide) (by decide) (by decide) (by decide) (by decide) (by decide)
    (by decide)

/-- Every SetMetaData call either carries no HTTP response, or it reached
Execute with a successfully built request. -/
theorem setMetaData_cases (env : ClientEnv) (queueName : String) (input : SetMetaDataInput) :
    (SetMetaData env queueName input).1.HttpResponse = none ∨
    (CallEvent.execute (setMetaDataOpts queueName input) ∈
        (SetMetaData env queueName input).2.2 ∧
      env.buildError = none) := by
  obtain ⟨be, oc⟩ := env
  unfold SetMetaData NewRequest Execute
  by_cases h1 : queueName = ""
  · simp [h1]
  · rw [if_neg h1]
    by_cases h2 : ToLower queueName ≠ queueName
    · rw [if_pos h2]
      left; rfl
    · rw [if_neg h2]
      cases hv : Validate input.MetaData with
      | some e => left; rfl
      | none =>
        cases be with
        | some e => left; rfl
        | none =>
          cases oc with
          | failure msg => left; rfl
          | received status =>
            by_cases hs : status = 204 <;>
              right <;> simp [setMetaDataOpts, hs]

/-- Every AbortCopy call either carries no HTTP response, or it reached
Execute with a successfully built request. -/
theorem abortCopy_cases (env : ClientEnv) (containerName blobName : String)
    (input : AbortCopyInput) :
    (AbortCopy env containerName blobName input).1.HttpResponse = none ∨
    (CallEvent.execute (abortCopyOpts containerName blobName input) ∈
        (AbortCopy env containerName blobName input).2.2 ∧
      env.buildError = none) := by
  obtain ⟨be, oc⟩ := env
  unfold AbortCopy NewRequest Execute
  by_cases h1 : containerName = ""
  · simp [h1]
  · rw [if_neg h1]
    by_cases h2 : ToLower containerName ≠ containerName
    · rw [if_pos h2]
      left; rfl
    · rw [if_neg h2]
      by_cases h3 : blobName = ""
      · simp [h3]
      · rw [if_neg h3]
        by_cases h4 : input.CopyID = ""
        · simp [h4]
        · rw [if_neg h4]
          cases be with
          | some e => left; rfl
          | none =>
            cases oc with
            | failure msg => left; rfl
            | received status =>
              by_cases hs : status = 204 <;>
                right <;> simp [abortCopyOpts, hs]

/-- C9: on any failure before Execute is reached — a validation failure,
which makes no calls at all, or a request-building failure — the returned
struct carries no HTTP response. -/
theorem pre_execution_failure_nil_response (env : ClientEnv) (queueName : String)
    (inputQ : SetMetaDataInput) (containerName blobName : String) (inputB : AbortCopyInput) :
    ((SetMetaData env queueName inputQ).2.2 = [] →
      (SetMetaData env queueName inputQ).1.HttpResponse = none) ∧
    (∀ e, env.buildError = some e →
      (SetMetaData env queueName inputQ).1.HttpResponse = none) ∧
    ((AbortCopy env containerName blobName inputB).2.2 = [] →
      (AbortCopy env containerName blobName inputB).1.HttpResponse = none) ∧
    (∀ e, env.buildError = some e →
      (AbortCopy env containerName blobName inputB).1.HttpResponse = none) := by
  refine ⟨?_, ?_, ?_, ?_⟩
  · intro h
    rcases setMetaData_cases env queueName inputQ with hr | ⟨hm, _⟩
    · exact hr
    · rw [h] at hm
      simp at hm
  · intro e he
    rcases setMetaData_cases env queueName inputQ with hr | ⟨_, hbe⟩
    · exact hr
    · rw [he] at hbe
      exact absurd hbe (by simp)
  · intro h
    rcases abortCopy_cases env containerName blobName inputB with hr | ⟨hm, _⟩
    · exact hr
    · rw [h] at hm
      simp at hm
  · intro e he
    rcases abortCopy_cases env containerName blobName inputB with hr | ⟨_, hbe⟩
    · exact hr
    · rw [he] at hbe
      exact absurd hbe (by simp)

/-- C9 witness: a validation failure and a concrete build failure both leave
the response field nil. -/
theorem pre_execution_failure_nil_response_witness :
    (SetMetaData ⟨some "boom", .received 204⟩ "Queue" ⟨[]⟩).1.HttpResponse = none ∧
    (AbortCopy ⟨some "boom", .received 204⟩ "mycontainer" "myblob.txt"
        ⟨"abc123", none⟩).1.HttpResponse = none :=
  ⟨(pre_execution_failure_nil_response ⟨some "boom", .received 204⟩ "Queue" ⟨[]⟩
      "mycontainer" "myblob.txt" ⟨"abc123", none⟩).1 (by decide),
    (pre_execution_failure_nil_response ⟨some "boom", .received 204⟩ "Queue" ⟨[]⟩
      "mycontainer" "myblob.txt" ⟨"abc123", none⟩).2.2.2 "boom" rfl⟩

end Giovanni
